import Mathlib

/-!
Verification of the dataset-synchronisation logic of `dataio`
(`src/dataio/download/__init__.py`, function `download_dataset_v2`).

The Python source is shallowly embedded as executable Lean definitions:

* paths are strings with POSIX separators; `pyJoin` models `os.path.join`,
  `strDrop` models character slicing `s[n:]`, `strContains`, `strStarts` and
  `strEnds` model `in`, `startswith` and `endswith` on strings;
* the three criteria loops (`contains_any`, `contains_all`, `suffixes`) are
  translated statement by statement, including the `firstLoop` flags of the
  source (note that the `contains_any` loop of the source never clears its
  flag, and this is preserved by the embedding);
* the object store and the local filesystem are explicit states (`Remote`,
  `LocalFS`); timestamps are integers, since the code only compares them;
* the reconciliation pass `download_dataset_v2` returns a `PassResult`:
  the list of filesystem effects it performed (`FSEvent`), the final list of
  local files, and its outcome (`Except PassError Unit`), accumulating the
  effects performed before a raise.
-/

/-- Containment of one character list in another, by scanning suffixes. -/
def charsInfix (pat : List Char) : List Char → Bool
  | [] => pat.isPrefixOf []
  | c :: rest => pat.isPrefixOf (c :: rest) || charsInfix pat rest

/-- Python `pat in s` (substring containment) on strings. -/
def strContains (s pat : String) : Bool :=
  charsInfix pat.data s.data

/-- Python `s.startswith(pat)` on strings. -/
def strStarts (s pat : String) : Bool :=
  pat.data.isPrefixOf s.data

/-- Python `s.endswith(pat)` on strings. -/
def strEnds (s pat : String) : Bool :=
  pat.data.isSuffixOf s.data

/-- Python slicing `s[n:]` (by characters). -/
def strDrop (s : String) (n : Nat) : String :=
  ⟨s.data.drop n⟩

/-- `posixpath.join a b` for the shapes arising in the source:
if `b` is absolute the result is `b`; otherwise a separator is inserted
unless `a` is empty or already ends with one. -/
def pyJoin (a b : String) : String :=
  if strStarts b "/" then b
  else if a = "" ∨ strEnds a "/" then a ++ b
  else a ++ "/" ++ b

/-- Append a trailing separator unless one is present; `os.walk` file paths
under a root are exactly the paths extending the root through a separator. -/
def addSlash (s : String) : String :=
  if strEnds s "/" then s else s ++ "/"

/-- `posixpath.dirname`: everything before the final separator, with trailing
separators stripped unless the head consists only of separators. -/
def dirname (p : String) : String :=
  let l := p.data
  let i := l.length - (l.reverse.takeWhile (fun c => c ≠ '/')).length
  let head := l.take i
  if head ≠ [] ∧ head.any (fun c => c ≠ '/') then
    ⟨(head.reverse.dropWhile (fun c => c = '/')).reverse⟩
  else ⟨head⟩

/-- `folder.split("-")[0]`: the segment of a folder name before the first
dash. -/
def leadingSegment (folder : String) : String :=
  ⟨folder.data.takeWhile (fun c => c ≠ '-')⟩

/-- One step of building the `dsid_names` dictionary:
`dsid_names[folder.split("-")[0]] = folder`, i.e. pointwise update of the
lookup function (later folders overwrite earlier ones with the same leading
segment, as for a Python dict). -/
def dsidUpdate (m : String → Option String) (folder : String) :
    String → Option String :=
  fun k => if k = leadingSegment folder then some folder else m k

/-- The `dsid_names` dictionary built from the bucket's common prefixes,
followed by `dsid_names.get(dsid)`. -/
def dsidNames (folders : List String) : String → Option String :=
  folders.foldl dsidUpdate (fun _ => none)

/-- `settings["data_state_buckets"].get(data_state)`; the settings mapping is
package data outside the repository, so it is passed in as an association
list. -/
def lookupBucket (buckets : List (String × String)) (data_state : String) :
    Option String :=
  match buckets.find? (fun p => p.1 == data_state) with
  | some p => some p.2
  | none => none

/-- The `contains_any` loop of the source, translated literally.  The source
initialises `firstLoop = True` and never assigns `firstLoop = False` inside
this loop (unlike the `contains_all` and `suffixes` loops), so the flag is
passed through unchanged in the first branch, exactly as in the source.  The
error payload is the `repeats` set of the `raise`. -/
def anyLoop (files_found : List String) :
    List String → Bool → List String → Except (List String) (List String)
  | [], _, acc => Except.ok acc
  | item :: rest, firstLoop, acc =>
    let this := files_found.filter (fun f => strContains f item)
    if firstLoop then
      anyLoop files_found rest firstLoop this
    else
      if acc.all (fun f => !(this.contains f)) then
        anyLoop files_found rest firstLoop
          (acc ++ this.filter (fun f => !(acc.contains f)))
      else
        Except.error (acc.filter (fun f => this.contains f))

/-- `files_containing_any`: the full key set when the group is absent,
otherwise the result of the source's loop.  A single-string group is
normalised to a singleton list at the boundary, as in the source. -/
def files_containing_any (files_found : List String) :
    Option (List String) → Except (List String) (List String)
  | none => Except.ok files_found
  | some items => anyLoop files_found items true []

/-- Reference semantics of the contains-any group taken from the
specification text (union of the per-item subsets, error when two items'
subsets overlap): identical to `anyLoop` except that the first-iteration
flag is cleared, so the union/overlap branch is actually reached.  It is
used only to exhibit the divergence of the source loop. -/
def anyLoopUnion (files_found : List String) :
    List String → Bool → List String → Except (List String) (List String)
  | [], _, acc => Except.ok acc
  | item :: rest, firstLoop, acc =>
    let this := files_found.filter (fun f => strContains f item)
    if firstLoop then
      anyLoopUnion files_found rest false this
    else
      if acc.all (fun f => !(this.contains f)) then
        anyLoopUnion files_found rest false
          (acc ++ this.filter (fun f => !(acc.contains f)))
      else
        Except.error (acc.filter (fun f => this.contains f))

/-- The contains-any group under the specification's union semantics. -/
def files_containing_any_union (files_found : List String) :
    Option (List String) → Except (List String) (List String)
  | none => Except.ok files_found
  | some items => anyLoopUnion files_found items true []

/-- The `contains_all` loop of the source: intersection, across the items,
of the subsets of keys containing each item (the flag is cleared after the
first iteration, as in the source). -/
def allLoop (files_found : List String) :
    List String → Bool → List String → List String
  | [], _, acc => acc
  | item :: rest, _firstLoop, acc =>
    let this := files_found.filter (fun f => strContains f item)
    if _firstLoop then allLoop files_found rest false this
    else allLoop files_found rest false (acc.filter (fun f => this.contains f))

/-- `files_containing_all`: full key set when absent, else the loop. -/
def files_containing_all (files_found : List String) :
    Option (List String) → List String
  | none => files_found
  | some items => allLoop files_found items true []

/-- The `suffixes` loop of the source: intersection, across the suffixes, of
the subsets of keys ending with each suffix. -/
def sufLoop (files_found : List String) :
    List String → Bool → List String → List String
  | [], _, acc => acc
  | s :: rest, _first_loop, acc =>
    let this := files_found.filter (fun f => strEnds f s)
    if _first_loop then sufLoop files_found rest false this
    else sufLoop files_found rest false (acc.filter (fun f => this.contains f))

/-- `files_with_suffixes`: full key set when absent, else the loop. -/
def files_with_suffixes (files_found : List String) :
    Option (List String) → List String
  | none => files_found
  | some sufs => sufLoop files_found sufs true []

/-- The selection pipeline of the source: the contains-any result
intersected with the contains-all and suffix subsets
(`files_containing_any.intersection(files_containing_all,
files_with_suffixes)`). -/
def files_to_download (files_found : List String)
    (contains_all contains_any suffixes : Option (List String)) :
    Except (List String) (List String) :=
  match files_containing_any files_found contains_any with
  | Except.error r => Except.error r
  | Except.ok anyS =>
    let allS := files_containing_all files_found contains_all
    let sufS := files_with_suffixes files_found suffixes
    Except.ok (anyS.filter (fun f => allS.contains f && sufS.contains f))

/-- The selection pipeline under the specification's union semantics for the
contains-any group; used only to exhibit the divergence of the source. -/
def files_to_download_union (files_found : List String)
    (contains_all contains_any suffixes : Option (List String)) :
    Except (List String) (List String) :=
  match files_containing_any_union files_found contains_any with
  | Except.error r => Except.error r
  | Except.ok anyS =>
    let allS := files_containing_all files_found contains_all
    let sufS := files_with_suffixes files_found suffixes
    Except.ok (anyS.filter (fun f => allS.contains f && sufS.contains f))

instance {ε α : Type} [DecidableEq ε] [DecidableEq α] :
    DecidableEq (Except ε α) := fun x y =>
  match x, y with
  | Except.ok a, Except.ok b =>
    if h : a = b then isTrue (by rw [h])
    else isFalse (fun hc => h (Except.ok.inj hc))
  | Except.error a, Except.error b =>
    if h : a = b then isTrue (by rw [h])
    else isFalse (fun hc => h (Except.error.inj hc))
  | Except.ok _, Except.error _ => isFalse (fun hc => Except.noConfusion hc)
  | Except.error _, Except.ok _ => isFalse (fun hc => Except.noConfusion hc)

/-- The error taxonomy of a reconciliation pass. -/
inductive PassError where
  | invalidState
  | datasetNotFound
  | ambiguousSelection
  | noFilesMatched
  | docsNotFound
  deriving DecidableEq, Repr

/-- The selection step together with the empty-intersection check
(`raise ValueError("No files meet specified criteria.")`). -/
def selectedKeys (files_found : List String)
    (contains_all contains_any suffixes : Option (List String)) :
    Except PassError (List String) :=
  match files_to_download files_found contains_all contains_any suffixes with
  | Except.error _ => Except.error PassError.ambiguousSelection
  | Except.ok sel =>
    if sel.isEmpty then Except.error PassError.noFilesMatched
    else Except.ok sel

/-- The state of the object store seen by one pass: the bucket's top-level
common prefixes, the bucket's object keys, and the per-key last-modified
time returned by `head_object` (timestamps are integers, the code only
compares them). -/
structure Remote where
  folders : List String
  keys : List String
  mtime : String → Int

/-- The local filesystem at the start of a pass: the regular files present,
their modification and creation times (`os.path.getmtime` and
`os.path.getctime`), and which directories exist. -/
structure LocalFS where
  files : List String
  mtime : String → Int
  ctime : String → Int
  dirExists : String → Bool

/-- The filesystem and warning effects a pass can perform. -/
inductive FSEvent where
  | mkdirs (dir : String)
  | download (key : String) (dest : String)
  | remove (path : String)
  | warnCtime
  | writeMetadata (path : String)
  | writeDatadict (path : String)
  deriving DecidableEq, Repr

/-- Recognise the creation-time-unreliability warning among the events. -/
def isWarn : FSEvent → Bool
  | FSEvent.warnCtime => true
  | _ => false

/-- Number of creation-time-unreliability warnings in an event list. -/
def countWarns (es : List FSEvent) : Nat :=
  (es.filter isWarn).length

/-- The per-key synchronisation decision of the specification. -/
inductive SyncDecision where
  | skip
  | fetch
  | overwriteFromRemote
  | overwriteByReupload
  deriving DecidableEq, Repr

/-- The per-key decision logic of the download loop, extracted as a pure
function of the update flag, local existence and the three timestamps. -/
def syncDecision (update localExists : Bool)
    (local_last_modified_time local_creation_time s3_last_modified_time : Int) :
    SyncDecision :=
  if update = true ∧ localExists = true then
    if local_last_modified_time > local_creation_time then
      SyncDecision.overwriteByReupload
    else if s3_last_modified_time > local_creation_time then
      SyncDecision.overwriteFromRemote
    else SyncDecision.skip
  else SyncDecision.fetch

/-- The mutable state threaded through the download loop: the events
performed so far, the regular files present, and the directories created by
`os.makedirs` during this pass. -/
structure LoopState where
  events : List FSEvent
  files : List String
  createdDirs : List String
  deriving Repr

/-- One iteration of the download loop of `download_dataset_v2` for a
selected key: the per-file creation-time warning, then either the
timestamp-based update branch or the unconditional fetch branch (which
creates the parent directory when missing). -/
def syncStep (re : Remote) (loc : LocalFS) (platformSystem : String)
    (update : Bool) (datadir : String) (st : LoopState) (file_path : String) :
    LoopState :=
  let destination_path := pyJoin datadir file_path
  let st1 :=
    if platformSystem ≠ "Windows" ∧ update = true then
      { st with events := st.events ++ [FSEvent.warnCtime] }
    else st
  if update = true ∧ st1.files.contains destination_path = true then
    let local_last_modified_time := loc.mtime destination_path
    let local_creation_time := loc.ctime destination_path
    let s3_last_modified_time := re.mtime file_path
    if local_last_modified_time > local_creation_time then
      { st1 with
        events := st1.events ++ [FSEvent.download file_path destination_path] }
    else if s3_last_modified_time > local_creation_time then
      { st1 with
        events := st1.events ++ [FSEvent.download file_path destination_path] }
    else st1
  else
    let directory := dirname destination_path
    let st2 :=
      if !(loc.dirExists directory || st1.createdDirs.contains directory) then
        { st1 with
          events := st1.events ++ [FSEvent.mkdirs directory],
          createdDirs := st1.createdDirs ++ [directory] }
      else st1
    { st2 with
      events := st2.events ++ [FSEvent.download file_path destination_path],
      files :=
        if st2.files.contains destination_path then st2.files
        else st2.files ++ [destination_path] }

/-- The keys listed under the resolved folder: every object key with the
folder as a prefix, excluding folder placeholders (keys ending in a
separator). -/
def filesFound (re : Remote) (dsid_name : String) : List String :=
  (re.keys.filter (fun k => strStarts k dsid_name)).filter
    (fun k => !(strEnds k "/"))

/-- The pruning step of `download_dataset_v2` (`clean=True`): walk every
file under the dataset's local subdirectory; a file whose path relative to
`datadir` (character slicing past `len(datadir) + 1`) is neither in
`files_found` nor among the two protected filenames is removed.  Note the
membership test is against the full listing `files_found`, not against the
selected keys. -/
def pruneRemovals (files_found : List String) (datadir dsid_name : String)
    (files : List String) : List String :=
  let exception_fnames :=
    [pyJoin dsid_name "datadictionary.yaml", pyJoin dsid_name "metadata.yaml"]
  let dplen := datadir.length + 1
  let walkRoot := pyJoin datadir dsid_name
  let walked := files.filter (fun f => strStarts f (addSlash walkRoot))
  walked.filter (fun f =>
    let rel := strDrop f dplen
    !(files_found.contains rel) && !(exception_fnames.contains rel))

/-- Perform the pruning: emit one remove event per extraneous file and drop
those files from the local file list. -/
def pruneDataset (files_found : List String) (datadir dsid_name : String)
    (st : LoopState) : LoopState :=
  let toRemove := pruneRemovals files_found datadir dsid_name st.files
  { st with
    events := st.events ++ toRemove.map FSEvent.remove,
    files := st.files.filter (fun f => !(toRemove.contains f)) }

/-- The outcome of one reconciliation pass: the effects performed, the
final list of local files, and either success or the error raised (effects
performed before a raise are kept). -/
structure PassResult where
  events : List FSEvent
  files : List String
  outcome : Except PassError Unit
  deriving DecidableEq, Repr

/-- Write one documentation artifact: ensure the parent directory exists
(`os.makedirs(..., exist_ok=True)`), then write the file.  The source
repeats this block verbatim for the metadata and the data dictionary; the
event constructor is the only difference. -/
def writeDocFile (ev : String → FSEvent) (path : String) (loc : LocalFS)
    (st : LoopState) : LoopState :=
  let pdir := dirname path
  let mkEvents :=
    if !(loc.dirExists pdir || st.createdDirs.contains pdir) then
      [FSEvent.mkdirs pdir]
    else []
  let newDirs :=
    if !(loc.dirExists pdir || st.createdDirs.contains pdir) then [pdir]
    else []
  { events := st.events ++ mkEvents ++ [ev path],
    files :=
      if st.files.contains path then st.files
      else st.files ++ [path],
    createdDirs := st.createdDirs ++ newDirs }

/-- The documentation-fetch step: the external collaborator either fails
(`DocsNotFound`) or yields the two artifacts, which are written directly
under the dataset's local subdirectory, creating it when missing. -/
def docsStep (docsOk : Bool) (datadir dsid_name : String) (loc : LocalFS)
    (st : LoopState) : PassResult :=
  if docsOk = false then ⟨st.events, st.files, Except.error PassError.docsNotFound⟩
  else
    let st2 := writeDocFile FSEvent.writeMetadata
      (pyJoin (pyJoin datadir dsid_name) "metadata.yaml") loc st
    let st4 := writeDocFile FSEvent.writeDatadict
      (pyJoin (pyJoin datadir dsid_name) "datadictionary.yaml") loc st2
    ⟨st4.events, st4.files, Except.ok ()⟩

/-- The effectful tail of a successful selection: the download loop over
the selected keys, the optional pruning, and the optional documentation
fetch, in the order of the source. -/
def passStages (re : Remote) (loc : LocalFS) (platformSystem : String)
    (docsOk : Bool) (dsid_name : String) (sel : List String) (datadir : String)
    (update clean fetch_docs : Bool) (files_found : List String) : PassResult :=
  let st0 : LoopState := ⟨[], loc.files, []⟩
  let st1 := sel.foldl (syncStep re loc platformSystem update datadir) st0
  let st2 := if clean then pruneDataset files_found datadir dsid_name st1 else st1
  if fetch_docs then docsStep docsOk datadir dsid_name loc st2
  else ⟨st2.events, st2.files, Except.ok ()⟩

/-- One reconciliation pass of `download_dataset_v2`, with the external
collaborators (settings mapping, object store, local filesystem, platform
name, documentation fetch) passed in as explicit state.  The
`check_for_expected_files` and `expected_file_list` parameters are accepted
exactly as in the source signature; as in the source, no later statement
reads them.  The `verbose` parameter only governs log output in the source
and is likewise never read by the embedded effects. -/
def download_dataset_v2 (settings_buckets : List (String × String))
    (re : Remote) (loc : LocalFS) (platformSystem : String) (docsOk : Bool)
    (dsid : String) (data_state : String)
    (contains_all contains_any suffixes : Option (List String))
    (datadir : String) (update clean fetch_docs : Bool)
    (check_for_expected_files : Bool) (expected_file_list : List (Option String))
    (verbose : Bool) : PassResult :=
  match lookupBucket settings_buckets data_state with
  | none => ⟨[], loc.files, Except.error PassError.invalidState⟩
  | some _ =>
    match dsidNames re.folders dsid with
    | none => ⟨[], loc.files, Except.error PassError.datasetNotFound⟩
    | some dsid_name =>
      let files_found := filesFound re dsid_name
      match files_to_download files_found contains_all contains_any suffixes with
      | Except.error _ => ⟨[], loc.files, Except.error PassError.ambiguousSelection⟩
      | Except.ok sel =>
        if sel.isEmpty then ⟨[], loc.files, Except.error PassError.noFilesMatched⟩
        else
          passStages re loc platformSystem docsOk dsid_name sel datadir update
            clean fetch_docs files_found

theorem mem_contains {α : Type} [DecidableEq α] {l : List α} {a : α} :
    l.contains a = true ↔ a ∈ l := by simp

theorem contains_filter {α : Type} [DecidableEq α] (l : List α) (p : α → Bool)
    (a : α) (ha : a ∈ l) : (l.filter p).contains a = p a := by
  cases hp : p a with
  | true => exact mem_contains.mpr (List.mem_filter.mpr ⟨ha, hp⟩)
  | false =>
    cases hc : (l.filter p).contains a with
    | true =>
      exact absurd (List.mem_filter.mp (mem_contains.mp hc)).2
        (by rw [hp]; exact Bool.false_ne_true)
    | false => rfl

theorem anyLoop_flag_true (files : List String) (items acc : List String) :
    anyLoop files items true acc =
      Except.ok (match items.getLast? with
        | none => acc
        | some last => files.filter (fun f => strContains f last)) := by
  induction items generalizing acc with
  | nil => rfl
  | cons item rest ih =>
    have hstep : anyLoop files (item :: rest) true acc =
        anyLoop files rest true (files.filter (fun f => strContains f item)) := by
      simp [anyLoop]
    rw [hstep, ih]
    cases rest with
    | nil => rfl
    | cons b t =>
      rw [List.getLast?_cons_cons]
      cases hl : (b :: t).getLast? with
      | none => simp at hl
      | some last => rfl

theorem allLoop_flag_false (files : List String) (items : List String) :
    ∀ acc : List String, (∀ f ∈ acc, f ∈ files) →
      allLoop files items false acc =
        acc.filter (fun f => items.all (fun item => strContains f item)) := by
  induction items with
  | nil => intro acc _; simp [allLoop]
  | cons item rest ih =>
    intro acc hsub
    have hstep : allLoop files (item :: rest) false acc =
        allLoop files rest false
          (acc.filter (fun f =>
            (files.filter (fun g => strContains g item)).contains f)) := by
      simp [allLoop]
    rw [hstep, ih _ (fun f hf => hsub f (List.mem_filter.mp hf).1),
        List.filter_filter]
    refine List.filter_congr (fun f hf => ?_)
    rw [contains_filter files _ f (hsub f hf), List.all_cons, Bool.and_comm]

theorem sufLoop_flag_false (files : List String) (items : List String) :
    ∀ acc : List String, (∀ f ∈ acc, f ∈ files) →
      sufLoop files items false acc =
        acc.filter (fun f => items.all (fun s => strEnds f s)) := by
  induction items with
  | nil => intro acc _; simp [sufLoop]
  | cons s rest ih =>
    intro acc hsub
    have hstep : sufLoop files (s :: rest) false acc =
        sufLoop files rest false
          (acc.filter (fun f =>
            (files.filter (fun g => strEnds g s)).contains f)) := by
      simp [sufLoop]
    rw [hstep, ih _ (fun f hf => hsub f (List.mem_filter.mp hf).1),
        List.filter_filter]
    refine List.filter_congr (fun f hf => ?_)
    rw [contains_filter files _ f (hsub f hf), List.all_cons, Bool.and_comm]

theorem files_containing_all_eq (files : List String) (items : List String)
    (h : items ≠ []) :
    files_containing_all files (some items) =
      files.filter (fun f => items.all (fun item => strContains f item)) := by
  cases items with
  | nil => exact absurd rfl h
  | cons item rest =>
    have hstep : files_containing_all files (some (item :: rest)) =
        allLoop files rest false (files.filter (fun f => strContains f item)) := by
      simp [files_containing_all, allLoop]
    rw [hstep, allLoop_flag_false files rest _
        (fun f hf => (List.mem_filter.mp hf).1), List.filter_filter]
    refine List.filter_congr (fun f _ => ?_)
    rw [List.all_cons, Bool.and_comm]

theorem files_with_suffixes_eq (files : List String) (sufs : List String)
    (h : sufs ≠ []) :
    files_with_suffixes files (some sufs) =
      files.filter (fun f => sufs.all (fun s => strEnds f s)) := by
  cases sufs with
  | nil => exact absurd rfl h
  | cons s rest =>
    have hstep : files_with_suffixes files (some (s :: rest)) =
        sufLoop files rest false (files.filter (fun f => strEnds f s)) := by
      simp [files_with_suffixes, sufLoop]
    rw [hstep, sufLoop_flag_false files rest _
        (fun f hf => (List.mem_filter.mp hf).1), List.filter_filter]
    refine List.filter_congr (fun f _ => ?_)
    rw [List.all_cons, Bool.and_comm]

theorem files_to_download_ok {K : List String} {cc ca sf : Option (List String)}
    {sel : List String} (h : files_to_download K cc ca sf = Except.ok sel) :
    ∃ A, files_containing_any K ca = Except.ok A ∧
      sel = A.filter (fun f =>
        (files_containing_all K cc).contains f &&
        (files_with_suffixes K sf).contains f) := by
  unfold files_to_download at h
  cases hA : files_containing_any K ca with
  | error e => rw [hA] at h; cases h
  | ok A => rw [hA] at h; exact ⟨A, rfl, (Except.ok.inj h).symm⟩

/-- Claim C8: for every key list and every suffix group with two or more
suffixes, the suffix criterion selects exactly the keys ending with every
listed suffix (intersection of the per-suffix subsets, logical AND); the
last two conjuncts exhibit a key list on which this differs from the
at-least-one-suffix (union) reading. -/
theorem C8_suffixes_conjunctive (files : List String) (sufs : List String)
    (h2 : 2 ≤ sufs.length) :
    files_with_suffixes files (some sufs) =
      files.filter (fun f => sufs.all (fun s => strEnds f s))
    ∧ files_with_suffixes ["a.csv", "b.txt"] (some ["csv", "txt"]) = []
    ∧ ["a.csv", "b.txt"].filter
        (fun f => ["csv", "txt"].any (fun s => strEnds f s))
        = ["a.csv", "b.txt"] := by
  refine ⟨files_with_suffixes_eq files sufs ?_, by decide, by decide⟩
  intro hnil
  rw [hnil] at h2
  exact absurd h2 (by decide)

/-- Witness for C8 at a concrete input: a key ending in both listed
suffixes is selected by the conjunctive criterion. -/
theorem C8_witness :
    files_with_suffixes ["x.csv"] (some ["csv", ".csv"]) = ["x.csv"] := by
  rw [(C8_suffixes_conjunctive ["x.csv"] ["csv", ".csv"] (by decide)).1]
  decide

/-- Claim C7: for all key sets and criteria on which the filter succeeds,
applying the filter again to its own output with the same criteria returns
the same selection and raises no error. -/
theorem C7_filter_idempotent (K : List String)
    (contains_all contains_any suffixes : Option (List String))
    (S : List String)
    (h : selectedKeys K contains_all contains_any suffixes = Except.ok S) :
    selectedKeys S contains_all contains_any suffixes = Except.ok S := by
  unfold selectedKeys at h
  cases h1 : files_to_download K contains_all contains_any suffixes with
  | error e => rw [h1] at h; cases h
  | ok sel =>
    rw [h1] at h
    dsimp only at h
    by_cases hemp : sel.isEmpty
    · rw [if_pos hemp] at h; cases h
    · rw [if_neg hemp] at h
      have hS : sel = S := Except.ok.inj h
      subst hS
      have hSne : sel ≠ [] := by
        intro hn; rw [hn] at hemp; exact hemp rfl
      obtain ⟨A, hA, hselA⟩ := files_to_download_ok h1
      have hmemA : ∀ f ∈ sel, f ∈ A := by
        intro f hf; rw [hselA] at hf; exact (List.mem_filter.mp hf).1
      have hmemAll : ∀ f ∈ sel,
          (files_containing_all K contains_all).contains f = true := by
        intro f hf; rw [hselA] at hf
        exact (Bool.and_eq_true _ _ |>.mp (List.mem_filter.mp hf).2).1
      have hmemSuf : ∀ f ∈ sel,
          (files_with_suffixes K suffixes).contains f = true := by
        intro f hf; rw [hselA] at hf
        exact (Bool.and_eq_true _ _ |>.mp (List.mem_filter.mp hf).2).2
      have hany2 : files_containing_any sel contains_any = Except.ok sel := by
        cases hca : contains_any with
        | none => rfl
        | some items =>
          cases items with
          | nil =>
            rw [hca] at hA
            have hAnil : A = [] := (Except.ok.inj hA).symm
            obtain ⟨f, hf⟩ := List.exists_mem_of_ne_nil sel hSne
            exact absurd (hmemA f hf) (by simp [hAnil])
          | cons i rest =>
            cases hlast : (i :: rest).getLast? with
            | none => simp at hlast
            | some last =>
              rw [hca] at hA
              rw [show files_containing_any K (some (i :: rest))
                    = anyLoop K (i :: rest) true [] from rfl,
                  anyLoop_flag_true, hlast] at hA
              have hAeq : A = K.filter (fun f => strContains f last) :=
                (Except.ok.inj hA).symm
              rw [show files_containing_any sel (some (i :: rest))
                    = anyLoop sel (i :: rest) true [] from rfl,
                  anyLoop_flag_true, hlast]
              congr 1
              refine List.filter_eq_self.mpr (fun f hf => ?_)
              have := hmemA f hf
              rw [hAeq] at this
              exact (List.mem_filter.mp this).2
      have hall2 : files_containing_all sel contains_all = sel := by
        cases hcc : contains_all with
        | none => rfl
        | some items =>
          cases items with
          | nil =>
            obtain ⟨f, hf⟩ := List.exists_mem_of_ne_nil sel hSne
            have hc := hmemAll f hf
            rw [hcc] at hc
            simp [files_containing_all, allLoop] at hc
          | cons i rest =>
            have hne : (i :: rest) ≠ [] := by simp
            rw [files_containing_all_eq sel _ hne]
            refine List.filter_eq_self.mpr (fun f hf => ?_)
            have hc := hmemAll f hf
            rw [hcc, files_containing_all_eq K _ hne] at hc
            exact (List.mem_filter.mp (mem_contains.mp hc)).2
      have hsuf2 : files_with_suffixes sel suffixes = sel := by
        cases hsf : suffixes with
        | none => rfl
        | some items =>
          cases items with
          | nil =>
            obtain ⟨f, hf⟩ := List.exists_mem_of_ne_nil sel hSne
            have hc := hmemSuf f hf
            rw [hsf] at hc
            simp [files_with_suffixes, sufLoop] at hc
          | cons i rest =>
            have hne : (i :: rest) ≠ [] := by simp
            rw [files_with_suffixes_eq sel _ hne]
            refine List.filter_eq_self.mpr (fun f hf => ?_)
            have hc := hmemSuf f hf
            rw [hsf, files_with_suffixes_eq K _ hne] at hc
            exact (List.mem_filter.mp (mem_contains.mp hc)).2
      have hftd2 : files_to_download sel contains_all contains_any suffixes
          = Except.ok sel := by
        unfold files_to_download
        rw [hany2, hall2, hsuf2]
        dsimp only
        congr 1
        refine List.filter_eq_self.mpr (fun f hf => ?_)
        rw [mem_contains.mpr hf]
        rfl
      unfold selectedKeys
      rw [hftd2]
      dsimp only
      rw [if_neg hemp]

/-- Witness for C7 at a concrete input. -/
theorem C7_witness :
    selectedKeys ["ds-x/a.csv"] none (some ["a"]) (some ["csv"])
      = Except.ok ["ds-x/a.csv"] :=
  C7_filter_idempotent ["ds-x/a.csv", "ds-x/b.txt"] none (some ["a"])
    (some ["csv"]) ["ds-x/a.csv"] (by decide)

/-- Claim C2 (code bug): on the claim's scenario the source selection is
only the subset for the last contains-any item, not the union demanded by
the claim and by the function's own docstring; the union semantics of the
specification yields the claim's selection.  The last two conjuncts show
that the overlap (ambiguity) error of the source is unreachable: a key
containing two distinct items passes silently, while the specification
semantics raises. -/
theorem C2_contains_any_divergence :
    files_to_download ["icmr-01/a.csv", "icmr-02/b.csv", "other-01/c.csv"]
        (some ["icmr"]) (some ["01", "02"]) none
        = Except.ok ["icmr-02/b.csv"]
    ∧ files_to_download_union ["icmr-01/a.csv", "icmr-02/b.csv", "other-01/c.csv"]
        (some ["icmr"]) (some ["01", "02"]) none
        = Except.ok ["icmr-01/a.csv", "icmr-02/b.csv"]
    ∧ files_containing_any ["x_ab.csv"] (some ["a", "b"])
        = Except.ok ["x_ab.csv"]
    ∧ files_containing_any_union ["x_ab.csv"] (some ["a", "b"])
        = Except.error ["x_ab.csv"] :=
  ⟨by decide, by decide, by decide, by decide⟩

theorem dsidNames_skip (folders : List String) (dsid : String) :
    ∀ m : String → Option String, (∀ f ∈ folders, leadingSegment f ≠ dsid) →
      folders.foldl dsidUpdate m dsid = m dsid := by
  induction folders with
  | nil => intro m _; rfl
  | cons a t ih =>
    intro m h
    rw [List.foldl_cons, ih _ (fun f hf => h f (List.mem_cons_of_mem a hf))]
    unfold dsidUpdate
    rw [if_neg (fun he => h a (List.mem_cons_self a t) he.symm)]

theorem dsidNames_sound (folders : List String) (dsid : String) :
    ∀ (m : String → Option String) (f : String),
      folders.foldl dsidUpdate m dsid = some f →
      (f ∈ folders ∧ leadingSegment f = dsid) ∨ m dsid = some f := by
  induction folders with
  | nil => intro m f h; exact Or.inr h
  | cons a t ih =>
    intro m f h
    rw [List.foldl_cons] at h
    rcases ih _ f h with h1 | h1
    · exact Or.inl ⟨List.mem_cons_of_mem a h1.1, h1.2⟩
    · unfold dsidUpdate at h1
      by_cases he : dsid = leadingSegment a
      · rw [if_pos he] at h1
        have hfa : a = f := Option.some_inj.mp h1
        exact Or.inl ⟨hfa ▸ List.mem_cons_self a t, by rw [← hfa, ← he]⟩
      · rw [if_neg he] at h1
        exact Or.inr h1

theorem dsidNames_unique (folders : List String) (dsid : String) :
    ∀ (m : String → Option String) (f : String),
      f ∈ folders → leadingSegment f = dsid →
      (∀ g ∈ folders, leadingSegment g = dsid → g = f) →
      folders.foldl dsidUpdate m dsid = some f := by
  induction folders with
  | nil => intro m f hf _ _; cases hf
  | cons a t ih =>
    intro m f hf hseg huniq
    rw [List.foldl_cons]
    by_cases hmem : ∃ g ∈ t, leadingSegment g = dsid
    · obtain ⟨g, hg, hgseg⟩ := hmem
      have hgf : g = f := huniq g (List.mem_cons_of_mem a hg) hgseg
      subst hgf
      exact ih _ g hg hseg
        (fun x hx hxseg => huniq x (List.mem_cons_of_mem a hx) hxseg)
    · push_neg at hmem
      have hfa : f = a := by
        rcases List.mem_cons.mp hf with h | h
        · exact h
        · exact absurd hseg (hmem f h)
      subst hfa
      rw [dsidNames_skip t dsid _ hmem]
      unfold dsidUpdate
      rw [if_pos hseg.symm]

/-- Counterexample to claim C5 as stated: with identifier "ab-cd" (which
contains a dash) and the single folder "ab-cd-x/" that begins with
"ab-cd-", resolution fails and the whole pass raises DatasetNotFound,
although exactly one folder satisfies the claim's begins-with criterion. -/
theorem C5_counterexample :
    dsidNames ["ab-cd-x/"] "ab-cd" = none
    ∧ strStarts "ab-cd-x/" ("ab-cd" ++ "-") = true
    ∧ (download_dataset_v2 [("standardised", "bkt")]
        ⟨["ab-cd-x/"], ["ab-cd-x/a.csv"], fun _ => 0⟩
        ⟨[], fun _ => 0, fun _ => 0, fun _ => false⟩
        "Linux" true "ab-cd" "standardised" none none none
        "data" true false false false [none] false)
      = ⟨[], [], Except.error PassError.datasetNotFound⟩ :=
  ⟨by decide, by decide, by decide⟩

/-- Claim C5 (amended): prefix resolution selects the folder whose leading
dash-delimited segment (the part before the first dash) equals the dataset
identifier — for identifiers containing no dash this is exactly "begins
with the identifier followed by a dash"; when no folder's leading segment
matches, resolution yields none and the pass raises DatasetNotFound; under
the layout invariant that exactly one folder matches, that folder is
selected; a folder whose leading segment differs is never selected. -/
theorem C5_leading_segment_resolution (folders : List String) (dsid : String) :
    ((∀ f ∈ folders, leadingSegment f ≠ dsid) → dsidNames folders dsid = none)
    ∧ (∀ f, dsidNames folders dsid = some f →
        f ∈ folders ∧ leadingSegment f = dsid)
    ∧ (∀ f, f ∈ folders → leadingSegment f = dsid →
        (∀ g ∈ folders, leadingSegment g = dsid → g = f) →
        dsidNames folders dsid = some f)
    ∧ (∀ (settings_buckets : List (String × String)) (re : Remote)
        (loc : LocalFS) (platformSystem : String) (docsOk : Bool)
        (data_state : String) (cc ca sf : Option (List String))
        (datadir : String) (update clean fetch_docs cfe : Bool)
        (efl : List (Option String)) (vb : Bool) (b : String),
        lookupBucket settings_buckets data_state = some b →
        dsidNames re.folders dsid = none →
        download_dataset_v2 settings_buckets re loc platformSystem docsOk dsid
          data_state cc ca sf datadir update clean fetch_docs cfe efl vb
          = ⟨[], loc.files, Except.error PassError.datasetNotFound⟩) := by
  refine ⟨fun h => dsidNames_skip folders dsid _ h,
          fun f h => (dsidNames_sound folders dsid _ f h).resolve_right
            (by simp),
          fun f hf hseg hu => dsidNames_unique folders dsid _ f hf hseg hu,
          fun sb re loc ps dok ds cc ca sf dd u cl fd cfe efl vb b hb hn => ?_⟩
  simp [download_dataset_v2, hb, hn]

/-- Witness for C5 at a concrete input: a uniquely matching folder is
selected. -/
theorem C5_witness :
    dsidNames ["ab-x/", "cd-y/"] "cd" = some "cd-y/" :=
  (C5_leading_segment_resolution ["ab-x/", "cd-y/"] "cd").2.2.1 "cd-y/"
    (by decide) (by decide) (by decide)

/-- Claim C3: the per-key synchronisation decision is a pure function of
the update flag, local existence and the comparisons L greater than C and
R greater than C; when update is off or the file is absent the key is
fetched unconditionally (creating the parent directory when missing); when
L exceeds C the remote is downloaded over the file; else when R exceeds C
the remote is downloaded; else the key is skipped with no transfer.  The
last conjunct ties the decision function to the events of the actual loop
body. -/
theorem C3_sync_decision :
    (∀ (u e : Bool) (L C R L2 C2 R2 : Int), (L > C ↔ L2 > C2) →
      (R > C ↔ R2 > C2) →
      syncDecision u e L C R = syncDecision u e L2 C2 R2)
    ∧ (∀ (u e : Bool) (L C R : Int), ¬(u = true ∧ e = true) →
        syncDecision u e L C R = SyncDecision.fetch)
    ∧ (∀ L C R : Int, L > C →
        syncDecision true true L C R = SyncDecision.overwriteByReupload)
    ∧ (∀ L C R : Int, ¬(L > C) → R > C →
        syncDecision true true L C R = SyncDecision.overwriteFromRemote)
    ∧ (∀ L C R : Int, ¬(L > C) → ¬(R > C) →
        syncDecision true true L C R = SyncDecision.skip)
    ∧ (∀ (re : Remote) (loc : LocalFS) (ps : String) (update : Bool)
        (datadir : String) (st : LoopState) (key : String),
        (syncStep re loc ps update datadir st key).events
          = st.events
            ++ (if ps ≠ "Windows" ∧ update = true then [FSEvent.warnCtime]
                else [])
            ++ (match syncDecision update
                  (st.files.contains (pyJoin datadir key))
                  (loc.mtime (pyJoin datadir key))
                  (loc.ctime (pyJoin datadir key))
                  (re.mtime key) with
                | SyncDecision.skip => []
                | SyncDecision.fetch =>
                  (if !(loc.dirExists (dirname (pyJoin datadir key))
                        || st.createdDirs.contains
                            (dirname (pyJoin datadir key))) then
                    [FSEvent.mkdirs (dirname (pyJoin datadir key))]
                  else [])
                  ++ [FSEvent.download key (pyJoin datadir key)]
                | _ => [FSEvent.download key (pyJoin datadir key)])) := by
  refine ⟨?_, ?_, ?_, ?_, ?_, ?_⟩
  · intro u e L C R L2 C2 R2 hL hR
    unfold syncDecision
    by_cases hue : u = true ∧ e = true
    · rw [if_pos hue, if_pos hue]
      by_cases h1 : L > C
      · rw [if_pos h1, if_pos (hL.mp h1)]
      · rw [if_neg h1, if_neg (fun hx => h1 (hL.mpr hx))]
        by_cases h2 : R > C
        · rw [if_pos h2, if_pos (hR.mp h2)]
        · rw [if_neg h2, if_neg (fun hx => h2 (hR.mpr hx))]
    · rw [if_neg hue, if_neg hue]
  · intro u e L C R hue
    unfold syncDecision
    rw [if_neg hue]
  · intro L C R h1
    simp [syncDecision, h1]
  · intro L C R h1 h2
    simp [syncDecision, h1, h2]
  · intro L C R h1 h2
    simp [syncDecision, h1, h2]
  · intro re loc ps update datadir st key
    unfold syncStep syncDecision
    dsimp only
    by_cases hps : ps = "Windows" <;>
    by_cases hu : update = true <;>
    by_cases hmem : pyJoin datadir key ∈ st.files <;>
    by_cases h1 : loc.mtime (pyJoin datadir key) >
        loc.ctime (pyJoin datadir key) <;>
    by_cases h2 : re.mtime key > loc.ctime (pyJoin datadir key) <;>
    by_cases hdir : loc.dirExists (dirname (pyJoin datadir key)) = false
        ∧ dirname (pyJoin datadir key) ∉ st.createdDirs <;>
    simp [hps, hu, hmem, h1, h2, hdir, List.append_assoc]

/-- Witness for C3 at concrete inputs: each decision arises. -/
theorem C3_witness :
    syncDecision true true 5 3 0 = SyncDecision.overwriteByReupload
    ∧ syncDecision true true 1 3 7 = SyncDecision.overwriteFromRemote
    ∧ syncDecision true true 1 3 2 = SyncDecision.skip
    ∧ syncDecision false true 1 3 2 = SyncDecision.fetch :=
  ⟨C3_sync_decision.2.2.1 5 3 0 (by decide),
   C3_sync_decision.2.2.2.1 1 3 7 (by decide) (by decide),
   C3_sync_decision.2.2.2.2.1 1 3 2 (by decide) (by decide),
   C3_sync_decision.2.1 false true 1 3 2 (by simp)⟩

/-- Claim C4: whenever the intersection of the three criteria subsets is
empty, the pass raises NoFilesMatched and performs no filesystem mutation:
no event is emitted and the local file list is unchanged. -/
theorem C4_empty_selection_no_mutation (settings_buckets : List (String × String))
    (re : Remote) (loc : LocalFS) (platformSystem : String) (docsOk : Bool)
    (dsid data_state : String) (cc ca sf : Option (List String))
    (datadir : String) (update clean fetch_docs cfe : Bool)
    (efl : List (Option String)) (vb : Bool) (b dsid_name : String)
    (hb : lookupBucket settings_buckets data_state = some b)
    (hd : dsidNames re.folders dsid = some dsid_name)
    (hsel : files_to_download (filesFound re dsid_name) cc ca sf
      = Except.ok []) :
    download_dataset_v2 settings_buckets re loc platformSystem docsOk dsid
      data_state cc ca sf datadir update clean fetch_docs cfe efl vb
      = ⟨[], loc.files, Except.error PassError.noFilesMatched⟩ := by
  simp [download_dataset_v2, hb, hd, hsel]

/-- Witness for C4 at a concrete input. -/
theorem C4_witness :
    download_dataset_v2 [("standardised", "bkt")]
      ⟨["ds-x/"], ["ds-x/a.csv"], fun _ => 0⟩
      ⟨["keepme"], fun _ => 0, fun _ => 0, fun _ => false⟩
      "Linux" true "ds" "standardised" none none (some ["txt"])
      "data" true true true false [none] false
      = ⟨[], ["keepme"], Except.error PassError.noFilesMatched⟩ :=
  C4_empty_selection_no_mutation [("standardised", "bkt")]
    ⟨["ds-x/"], ["ds-x/a.csv"], fun _ => 0⟩
    ⟨["keepme"], fun _ => 0, fun _ => 0, fun _ => false⟩
    "Linux" true "ds" "standardised" none none (some ["txt"])
    "data" true true true false [none] false "bkt" "ds-x/"
    (by decide) (by decide) (by decide)

theorem countWarns_append (a b : List FSEvent) :
    countWarns (a ++ b) = countWarns a + countWarns b := by
  simp [countWarns, List.filter_append]

theorem countWarns_map_remove (l : List String) :
    countWarns (l.map FSEvent.remove) = 0 := by
  induction l with
  | nil => rfl
  | cons a t ih => simp [countWarns, isWarn, List.filter_cons, ih]

theorem syncStep_countWarns (re : Remote) (loc : LocalFS) (ps : String)
    (update : Bool) (datadir : String) (st : LoopState) (key : String) :
    countWarns (syncStep re loc ps update datadir st key).events
      = countWarns st.events
        + (if ps ≠ "Windows" ∧ update = true then 1 else 0) := by
  unfold syncStep
  dsimp only
  by_cases hps : ps = "Windows" <;>
  by_cases hu : update = true <;>
  by_cases hmem : pyJoin datadir key ∈ st.files <;>
  by_cases h1 : loc.mtime (pyJoin datadir key) >
      loc.ctime (pyJoin datadir key) <;>
  by_cases h2 : re.mtime key > loc.ctime (pyJoin datadir key) <;>
  by_cases hdir : loc.dirExists (dirname (pyJoin datadir key)) = false
      ∧ dirname (pyJoin datadir key) ∉ st.createdDirs <;>
  simp [hps, hu, hmem, h1, h2, hdir, countWarns, isWarn, List.filter_append,
    List.filter_cons]

theorem syncStep_remove (re : Remote) (loc : LocalFS) (ps : String)
    (update : Bool) (datadir : String) (st : LoopState) (key p : String) :
    (FSEvent.remove p ∈ (syncStep re loc ps update datadir st key).events)
      ↔ FSEvent.remove p ∈ st.events := by
  unfold syncStep
  dsimp only
  by_cases hps : ps = "Windows" <;>
  by_cases hu : update = true <;>
  by_cases hmem : pyJoin datadir key ∈ st.files <;>
  by_cases h1 : loc.mtime (pyJoin datadir key) >
      loc.ctime (pyJoin datadir key) <;>
  by_cases h2 : re.mtime key > loc.ctime (pyJoin datadir key) <;>
  by_cases hdir : loc.dirExists (dirname (pyJoin datadir key)) = false
      ∧ dirname (pyJoin datadir key) ∉ st.createdDirs <;>
  simp [hps, hu, hmem, h1, h2, hdir]

theorem loop_countWarns (re : Remote) (loc : LocalFS) (ps : String)
    (update : Bool) (datadir : String) (sel : List String) :
    ∀ st : LoopState,
      countWarns ((sel.foldl (syncStep re loc ps update datadir) st).events)
        = countWarns st.events
          + (if ps ≠ "Windows" ∧ update = true then sel.length else 0) := by
  induction sel with
  | nil => intro st; simp
  | cons k rest ih =>
    intro st
    rw [List.foldl_cons, ih, syncStep_countWarns]
    by_cases hw : ps ≠ "Windows" ∧ update = true
    · simp only [if_pos hw, List.length_cons]
      omega
    · simp [hw]

theorem loop_remove (re : Remote) (loc : LocalFS) (ps : String)
    (update : Bool) (datadir : String) (sel : List String) :
    ∀ (st : LoopState) (p : String),
      (FSEvent.remove p
          ∈ (sel.foldl (syncStep re loc ps update datadir) st).events)
        ↔ FSEvent.remove p ∈ st.events := by
  induction sel with
  | nil => intro st p; exact Iff.rfl
  | cons k rest ih =>
    intro st p
    rw [List.foldl_cons, ih, syncStep_remove]

theorem pruneRemovals_mem {files_found : List String}
    {datadir dsid_name : String} {files : List String} {p : String}
    (hp : p ∈ pruneRemovals files_found datadir dsid_name files) :
    p ∈ files
    ∧ strStarts p (addSlash (pyJoin datadir dsid_name)) = true
    ∧ strDrop p (datadir.length + 1) ∉ files_found
    ∧ strDrop p (datadir.length + 1) ∉
        [pyJoin dsid_name "datadictionary.yaml",
         pyJoin dsid_name "metadata.yaml"] := by
  unfold pruneRemovals at hp
  have h1 := List.mem_filter.mp hp
  have h2 := List.mem_filter.mp h1.1
  have h3 := h1.2
  dsimp only at h3
  have h4 := (Bool.and_eq_true _ _).mp h3
  refine ⟨h2.1, h2.2, ?_, ?_⟩
  · intro hmem
    have := h4.1
    rw [mem_contains.mpr hmem] at this
    cases this
  · intro hmem
    have := h4.2
    rw [mem_contains.mpr hmem] at this
    cases this

theorem contains_eq_false {α : Type} [DecidableEq α] {l : List α} {a : α}
    (h : a ∉ l) : l.contains a = false := by
  cases hc : l.contains a
  · rfl
  · exact absurd (mem_contains.mp hc) h

theorem prune_keep {files_found : List String} {datadir dsid_name : String}
    {files : List String} {f : String} (hf : f ∈ files)
    (hunder : strStarts f (addSlash (pyJoin datadir dsid_name)) = true)
    (hkeep : f ∉ pruneRemovals files_found datadir dsid_name files) :
    strDrop f (datadir.length + 1) ∈ files_found
    ∨ strDrop f (datadir.length + 1) ∈
        [pyJoin dsid_name "datadictionary.yaml",
         pyJoin dsid_name "metadata.yaml"] := by
  by_contra hcon
  push_neg at hcon
  apply hkeep
  unfold pruneRemovals
  refine List.mem_filter.mpr ⟨List.mem_filter.mpr ⟨hf, hunder⟩, ?_⟩
  dsimp only
  rw [contains_eq_false hcon.1, contains_eq_false hcon.2]
  rfl

theorem pruneDataset_files_mem {files_found : List String}
    {datadir dsid_name : String} {st : LoopState} {f : String}
    (hf : f ∈ (pruneDataset files_found datadir dsid_name st).files) :
    f ∈ st.files ∧ f ∉ pruneRemovals files_found datadir dsid_name st.files := by
  unfold pruneDataset at hf
  dsimp only at hf
  have h1 := List.mem_filter.mp hf
  refine ⟨h1.1, fun hmem => ?_⟩
  have := h1.2
  rw [mem_contains.mpr hmem] at this
  cases this

theorem pruneDataset_remove (files_found : List String)
    (datadir dsid_name : String) (st : LoopState) (p : String) :
    (FSEvent.remove p ∈ (pruneDataset files_found datadir dsid_name st).events)
      ↔ FSEvent.remove p ∈ st.events
        ∨ p ∈ pruneRemovals files_found datadir dsid_name st.files := by
  unfold pruneDataset
  dsimp only
  simp [List.mem_append, List.mem_map]

theorem pruneDataset_countWarns (files_found : List String)
    (datadir dsid_name : String) (st : LoopState) :
    countWarns (pruneDataset files_found datadir dsid_name st).events
      = countWarns st.events := by
  unfold pruneDataset
  dsimp only
  rw [countWarns_append, countWarns_map_remove]
  omega

theorem writeDocFile_countWarns (ev : String → FSEvent) (path : String)
    (loc : LocalFS) (st : LoopState) (hev : ∀ q, isWarn (ev q) = false) :
    countWarns (writeDocFile ev path loc st).events
      = countWarns st.events := by
  unfold writeDocFile
  dsimp only
  rw [countWarns_append, countWarns_append]
  have h1 : countWarns [ev path] = 0 := by
    simp [countWarns, List.filter_cons, hev]
  rw [h1]
  by_cases hdir : (loc.dirExists (dirname path)
      || st.createdDirs.contains (dirname path)) = true <;>
    simp [hdir, countWarns, isWarn, List.filter_cons] <;>
    intro a _ _ ha <;> subst ha <;> rfl

theorem writeDocFile_remove (ev : String → FSEvent) (path : String)
    (loc : LocalFS) (st : LoopState) (p : String)
    (hev : ∀ q, ev q ≠ FSEvent.remove p) :
    (FSEvent.remove p ∈ (writeDocFile ev path loc st).events)
      ↔ FSEvent.remove p ∈ st.events := by
  unfold writeDocFile
  dsimp only
  by_cases hdir : (loc.dirExists (dirname path)
      || st.createdDirs.contains (dirname path)) = true <;>
    simp [hdir, List.mem_append, fun q => (hev q).symm]

theorem writeDocFile_files_mem (ev : String → FSEvent) (path : String)
    (loc : LocalFS) (st : LoopState) (f : String)
    (hf : f ∈ (writeDocFile ev path loc st).files) :
    f ∈ st.files ∨ f = path := by
  unfold writeDocFile at hf
  dsimp only at hf
  split at hf
  · exact Or.inl hf
  · rcases List.mem_append.mp hf with h | h
    · exact Or.inl h
    · exact Or.inr (List.mem_singleton.mp h)

theorem docsStep_countWarns (dok : Bool) (datadir dsid_name : String)
    (loc : LocalFS) (st : LoopState) :
    countWarns (docsStep dok datadir dsid_name loc st).events
      = countWarns st.events := by
  unfold docsStep
  by_cases hdok : dok = false
  · simp [hdok]
  · rw [if_neg hdok]
    dsimp only
    rw [writeDocFile_countWarns FSEvent.writeDatadict _ _ _ (fun q => rfl),
        writeDocFile_countWarns FSEvent.writeMetadata _ _ _ (fun q => rfl)]

theorem docsStep_remove (dok : Bool) (datadir dsid_name : String)
    (loc : LocalFS) (st : LoopState) (p : String) :
    (FSEvent.remove p ∈ (docsStep dok datadir dsid_name loc st).events)
      ↔ FSEvent.remove p ∈ st.events := by
  unfold docsStep
  by_cases hdok : dok = false
  · simp [hdok]
  · rw [if_neg hdok]
    dsimp only
    rw [writeDocFile_remove _ _ _ _ _ (fun q => by simp),
        writeDocFile_remove _ _ _ _ _ (fun q => by simp)]

theorem docsStep_files_mem (dok : Bool) (datadir dsid_name : String)
    (loc : LocalFS) (st : LoopState) (f : String)
    (hf : f ∈ (docsStep dok datadir dsid_name loc st).files) :
    f ∈ st.files
    ∨ f = pyJoin (pyJoin datadir dsid_name) "metadata.yaml"
    ∨ f = pyJoin (pyJoin datadir dsid_name) "datadictionary.yaml" := by
  unfold docsStep at hf
  by_cases hdok : dok = false
  · rw [if_pos hdok] at hf
    exact Or.inl hf
  · rw [if_neg hdok] at hf
    dsimp only at hf
    rcases writeDocFile_files_mem _ _ _ _ _ hf with h | h
    · rcases writeDocFile_files_mem _ _ _ _ _ h with h2 | h2
      · exact Or.inl h2
      · exact Or.inr (Or.inl h2)
    · exact Or.inr (Or.inr h)

theorem passStages_countWarns (re : Remote) (loc : LocalFS) (ps : String)
    (dok : Bool) (dsid_name : String) (sel : List String) (dd : String)
    (u cl fd : Bool) (files_found : List String) :
    countWarns (passStages re loc ps dok dsid_name sel dd u cl fd
        files_found).events
      = if ps ≠ "Windows" ∧ u = true then sel.length else 0 := by
  unfold passStages
  dsimp only
  cases cl <;> cases fd <;>
    simp only [Bool.false_eq_true, if_false, if_true]
  · rw [loop_countWarns]
    simp [countWarns]
  · rw [docsStep_countWarns, loop_countWarns]
    simp [countWarns]
  · rw [pruneDataset_countWarns, loop_countWarns]
    simp [countWarns]
  · rw [docsStep_countWarns, pruneDataset_countWarns, loop_countWarns]
    simp [countWarns]

theorem passStages_remove (re : Remote) (loc : LocalFS) (ps : String)
    (dok : Bool) (dsid_name : String) (sel : List String) (dd : String)
    (u cl fd : Bool) (files_found : List String) (p : String) :
    (FSEvent.remove p
        ∈ (passStages re loc ps dok dsid_name sel dd u cl fd
            files_found).events)
      ↔ (cl = true ∧ p ∈ pruneRemovals files_found dd dsid_name
          ((sel.foldl (syncStep re loc ps u dd) ⟨[], loc.files, []⟩).files)) := by
  unfold passStages
  dsimp only
  cases cl <;> cases fd <;>
    simp [docsStep_remove, pruneDataset_remove, loop_remove]

theorem passStages_files_mem (re : Remote) (loc : LocalFS) (ps : String)
    (dok : Bool) (dsid_name : String) (sel : List String) (dd : String)
    (u fd : Bool) (files_found : List String) (f : String)
    (hf : f ∈ (passStages re loc ps dok dsid_name sel dd u true fd
        files_found).files) :
    (f ∈ (pruneDataset files_found dd dsid_name
        (sel.foldl (syncStep re loc ps u dd) ⟨[], loc.files, []⟩)).files)
    ∨ f = pyJoin (pyJoin dd dsid_name) "metadata.yaml"
    ∨ f = pyJoin (pyJoin dd dsid_name) "datadictionary.yaml" := by
  unfold passStages at hf
  dsimp only at hf
  cases fd with
  | false => exact Or.inl hf
  | true => exact docsStep_files_mem _ _ _ _ _ _ hf

theorem download_ok_shape (settings_buckets : List (String × String))
    (re : Remote) (loc : LocalFS) (platformSystem : String) (docsOk : Bool)
    (dsid data_state : String) (cc ca sf : Option (List String))
    (datadir : String) (update clean fetch_docs cfe : Bool)
    (efl : List (Option String)) (vb : Bool) (b dsid_name : String)
    (sel : List String)
    (hb : lookupBucket settings_buckets data_state = some b)
    (hd : dsidNames re.folders dsid = some dsid_name)
    (hsel : files_to_download (filesFound re dsid_name) cc ca sf
      = Except.ok sel)
    (hne : sel.isEmpty = false) :
    download_dataset_v2 settings_buckets re loc platformSystem docsOk dsid
      data_state cc ca sf datadir update clean fetch_docs cfe efl vb
      = passStages re loc platformSystem docsOk dsid_name sel datadir update
          clean fetch_docs (filesFound re dsid_name) := by
  simp [download_dataset_v2, hb, hd, hsel, hne]

/-- Counterexample to claim C6 as stated: a pass with two selected keys,
update enabled and a non-Windows platform executes the creation-time
warning twice — once per selected key, not once per pass. -/
theorem C6_counterexample :
    files_to_download
        (filesFound ⟨["ds-x/"], ["ds-x/a.csv", "ds-x/b.csv"], fun _ => 0⟩
          "ds-x/") none none (some ["csv"])
      = Except.ok ["ds-x/a.csv", "ds-x/b.csv"]
    ∧ countWarns (download_dataset_v2 [("standardised", "bkt")]
        ⟨["ds-x/"], ["ds-x/a.csv", "ds-x/b.csv"], fun _ => 0⟩
        ⟨[], fun _ => 0, fun _ => 0, fun _ => false⟩
        "Linux" true "ds" "standardised" none none (some ["csv"])
        "data" true false false false [none] false).events = 2 :=
  ⟨by decide, by decide⟩

/-- Claim C6 (amended): when update is enabled on a non-Windows platform,
the creation-time-unreliability warning is executed once per selected key
(the `warnings.warn` call sits inside the download loop), so a pass emits
exactly as many warning calls as there are selected keys, and none
otherwise; any once-per-process coalescing is done by the ambient warnings
filter, not by this pass. -/
theorem C6_warn_per_selected_key (settings_buckets : List (String × String))
    (re : Remote) (loc : LocalFS) (platformSystem : String) (docsOk : Bool)
    (dsid data_state : String) (cc ca sf : Option (List String))
    (datadir : String) (update clean fetch_docs cfe : Bool)
    (efl : List (Option String)) (vb : Bool) (b dsid_name : String)
    (sel : List String)
    (hb : lookupBucket settings_buckets data_state = some b)
    (hd : dsidNames re.folders dsid = some dsid_name)
    (hsel : files_to_download (filesFound re dsid_name) cc ca sf
      = Except.ok sel)
    (hne : sel.isEmpty = false) :
    countWarns (download_dataset_v2 settings_buckets re loc platformSystem
        docsOk dsid data_state cc ca sf datadir update clean fetch_docs cfe
        efl vb).events
      = if platformSystem ≠ "Windows" ∧ update = true then sel.length
        else 0 := by
  rw [download_ok_shape settings_buckets re loc platformSystem docsOk dsid
    data_state cc ca sf datadir update clean fetch_docs cfe efl vb b
    dsid_name sel hb hd hsel hne]
  exact passStages_countWarns re loc platformSystem docsOk dsid_name sel
    datadir update clean fetch_docs (filesFound re dsid_name)

/-- Witness for the amended C6 at a concrete input: two selected keys give
two warning calls. -/
theorem C6_witness :
    countWarns (download_dataset_v2 [("standardised", "bkt")]
        ⟨["ds-y/"], ["ds-y/a.csv", "ds-y/b.csv"], fun _ => 0⟩
        ⟨[], fun _ => 0, fun _ => 0, fun _ => false⟩
        "Linux" true "ds" "standardised" none none none
        "data" true false false false [none] false).events = 2 := by
  rw [C6_warn_per_selected_key [("standardised", "bkt")]
    ⟨["ds-y/"], ["ds-y/a.csv", "ds-y/b.csv"], fun _ => 0⟩
    ⟨[], fun _ => 0, fun _ => 0, fun _ => false⟩
    "Linux" true "ds" "standardised" none none none
    "data" true false false false [none] false "bkt" "ds-y/"
    ["ds-y/a.csv", "ds-y/b.csv"] (by decide) (by decide) (by decide)
    (by decide)]
  decide

/-- Claim C10: the parameters `check_for_expected_files` and
`expected_file_list` are accepted but never read: two passes agreeing on
every other argument and on the external state produce identical results
whatever these two arguments are. -/
theorem C10_unused_parameters_no_effect
    (settings_buckets : List (String × String)) (re : Remote) (loc : LocalFS)
    (platformSystem : String) (docsOk : Bool) (dsid data_state : String)
    (cc ca sf : Option (List String)) (datadir : String)
    (update clean fetch_docs : Bool) (cfe1 cfe2 : Bool)
    (efl1 efl2 : List (Option String)) (vb : Bool) :
    download_dataset_v2 settings_buckets re loc platformSystem docsOk dsid
      data_state cc ca sf datadir update clean fetch_docs cfe1 efl1 vb
      = download_dataset_v2 settings_buckets re loc platformSystem docsOk dsid
          data_state cc ca sf datadir update clean fetch_docs cfe2 efl2 vb :=
  rfl

theorem strData_append (s t : String) : (s ++ t).data = s.data ++ t.data :=
  String.data_append s t

theorem strExt {a b : String} (h : a.data = b.data) : a = b := by
  cases a
  cases b
  exact congrArg String.mk (by simpa using h)

theorem strEta (s : String) : (⟨s.data⟩ : String) = s := by
  cases s
  rfl

theorem strLength_eq (s : String) : s.length = s.data.length := by
  cases s
  rfl

theorem bool_eq_of_iff {a b : Bool} (h : a = true ↔ b = true) : a = b := by
  cases a <;> cases b <;> simp_all

theorem dataEmpty : ("" : String).data = [] := rfl

theorem dataSlash : ("/" : String).data = ['/'] := rfl

theorem singleton_suffix_getLast (c : Char) (w : List Char) :
    [c] <:+ w ↔ w.getLast? = some c := by
  constructor
  · intro h
    obtain ⟨t, ht⟩ := h
    rw [← ht]
    exact List.getLast?_concat t
  · intro h
    have hw : w ≠ [] := by
      intro hn
      rw [hn] at h
      cases h
    have h2 := List.dropLast_append_getLast hw
    have h3 : w.getLast hw = c := by
      have h4 := List.getLast?_eq_getLast w hw
      rw [h4] at h
      exact Option.some_inj.mp h
    exact ⟨w.dropLast, by rw [← h3]; exact h2⟩

theorem strEnds_iff (s pat : String) :
    strEnds s pat = true ↔ pat.data <:+ s.data := by
  unfold strEnds
  exact List.isSuffixOf_iff_suffix

theorem strStarts_iff (s pat : String) :
    strStarts s pat = true ↔ pat.data <+: s.data := by
  unfold strStarts
  exact List.isPrefixOf_iff_prefix

theorem strEnds_slash_append (a b : String) (hb : b ≠ "") :
    strEnds (a ++ b) "/" = strEnds b "/" := by
  have hbd : b.data ≠ [] := by
    intro h
    exact hb (strExt (h.trans dataEmpty.symm))
  apply bool_eq_of_iff
  rw [strEnds_iff, strEnds_iff, strData_append, dataSlash,
      singleton_suffix_getLast, singleton_suffix_getLast,
      List.getLast?_append_of_ne_nil _ hbd]

theorem pyJoin_eq (a b : String) (ha1 : a ≠ "") (ha2 : strEnds a "/" = false)
    (hb : strStarts b "/" = false) : pyJoin a b = a ++ "/" ++ b := by
  unfold pyJoin
  rw [if_neg (by simp [hb]), if_neg (by simp [ha1, ha2])]

theorem concat_slash_ne_empty (a b : String) : a ++ "/" ++ b ≠ "" := by
  intro h
  have h1 := congrArg String.data h
  rw [strData_append, strData_append, dataSlash, dataEmpty] at h1
  simp at h1

theorem str_append_empty (s : String) : s ++ "" = s := by
  apply strExt
  rw [strData_append, dataEmpty]
  simp

theorem pyJoin_join_eq (a b c : String) (ha1 : a ≠ "")
    (ha2 : strEnds a "/" = false) (hb : strStarts b "/" = false)
    (hc : strStarts c "/" = false) :
    pyJoin (pyJoin a b) c = a ++ "/" ++ pyJoin b c := by
  rw [pyJoin_eq a b ha1 ha2 hb]
  by_cases hbe : b = ""
  · subst hbe
    rw [str_append_empty]
    unfold pyJoin
    rw [if_neg (by simp [hc]),
        if_pos (Or.inr (by
          rw [strEnds_slash_append a "/" (by decide)]
          rfl)),
        if_neg (by simp [hc]), if_pos (Or.inl rfl)]
    apply strExt
    simp [strData_append, dataEmpty, dataSlash]
  · by_cases hbe2 : strEnds b "/" = true
    · have hPend : strEnds (a ++ "/" ++ b) "/" = true := by
        rw [strEnds_slash_append (a ++ "/") b hbe]
        exact hbe2
      unfold pyJoin
      rw [if_neg (by simp [hc]), if_pos (Or.inr hPend),
          if_neg (by simp [hc]), if_pos (Or.inr hbe2)]
      apply strExt
      simp [strData_append, dataSlash]
    · have hbe2f : strEnds b "/" = false := by
        cases h : strEnds b "/"
        · rfl
        · exact absurd h hbe2
      have hPend : strEnds (a ++ "/" ++ b) "/" = false := by
        rw [strEnds_slash_append (a ++ "/") b hbe]
        exact hbe2f
      unfold pyJoin
      rw [if_neg (by simp [hc]),
          if_neg (by simp [concat_slash_ne_empty a b, hPend]),
          if_neg (by simp [hc]), if_neg (by simp [hbe, hbe2f])]
      apply strExt
      simp [strData_append, dataSlash]

theorem strDrop_concat (a : String) (rest : List Char) :
    strDrop ⟨a.data ++ '/' :: rest⟩ (a.length + 1) = ⟨rest⟩ := by
  apply strExt
  show (a.data ++ '/' :: rest).drop (a.length + 1) = rest
  rw [show a.data ++ '/' :: rest = (a.data ++ ['/']) ++ rest by simp,
      show a.length + 1 = (a.data ++ ['/']).length by
        rw [strLength_eq]; simp]
  exact List.drop_left _ _

/-- Counterexample to claim C1 as stated: with remote keys a.csv and b.txt,
criterion suffixes=["csv"] selects only a.csv; a pre-existing local copy of
b.txt survives a clean pass (its relative path is in the full remote
listing), although it is neither in the selected-key set nor protected. -/
theorem C1_counterexample :
    files_to_download
        (filesFound ⟨["ds-x/"], ["ds-x/a.csv", "ds-x/b.txt"], fun _ => 0⟩
          "ds-x/") none none (some ["csv"])
      = Except.ok ["ds-x/a.csv"]
    ∧ (download_dataset_v2 [("standardised", "bkt")]
        ⟨["ds-x/"], ["ds-x/a.csv", "ds-x/b.txt"], fun _ => 0⟩
        ⟨["data/ds-x/b.txt"], fun _ => 0, fun _ => 0, fun _ => false⟩
        "Linux" true "ds" "standardised" none none (some ["csv"])
        "data" false true false false [none] false).outcome = Except.ok ()
    ∧ "data/ds-x/b.txt" ∈ (download_dataset_v2 [("standardised", "bkt")]
        ⟨["ds-x/"], ["ds-x/a.csv", "ds-x/b.txt"], fun _ => 0⟩
        ⟨["data/ds-x/b.txt"], fun _ => 0, fun _ => 0, fun _ => false⟩
        "Linux" true "ds" "standardised" none none (some ["csv"])
        "data" false true false false [none] false).files
    ∧ "ds-x/b.txt" ∉ ["ds-x/a.csv"]
    ∧ "ds-x/b.txt" ∉ ["ds-x/datadictionary.yaml", "ds-x/metadata.yaml"] :=
  ⟨by decide, by decide, by decide, by decide, by decide⟩

/-- Claim C1 (amended): after a pass with clean enabled (with `datadir` a
nonempty directory name without a trailing separator), every file remaining
under the dataset's local subdirectory has a datadir-relative path that is
either in the full remote listing `files_found` or among the two protected
filenames — deletion is keyed by the full listing, not by the post-filter
selection, so unselected but listed files survive and anything outside both
sets is deleted. -/
theorem C1_remaining_in_listing_or_protected
    (settings_buckets : List (String × String)) (re : Remote) (loc : LocalFS)
    (platformSystem : String) (docsOk : Bool) (dsid data_state : String)
    (cc ca sf : Option (List String)) (datadir : String)
    (update fetch_docs cfe : Bool) (efl : List (Option String)) (vb : Bool)
    (b dsid_name : String) (sel : List String) (f : String)
    (hb : lookupBucket settings_buckets data_state = some b)
    (hd : dsidNames re.folders dsid = some dsid_name)
    (hsel : files_to_download (filesFound re dsid_name) cc ca sf
      = Except.ok sel)
    (hne : sel.isEmpty = false)
    (hdd1 : datadir ≠ "") (hdd2 : strEnds datadir "/" = false)
    (hdn : strStarts dsid_name "/" = false)
    (hf : f ∈ (download_dataset_v2 settings_buckets re loc platformSystem
        docsOk dsid data_state cc ca sf datadir update true fetch_docs cfe
        efl vb).files)
    (hunder : strStarts f (addSlash (pyJoin datadir dsid_name)) = true) :
    ∃ rel, f = datadir ++ "/" ++ rel
      ∧ (rel ∈ filesFound re dsid_name
         ∨ rel = pyJoin dsid_name "datadictionary.yaml"
         ∨ rel = pyJoin dsid_name "metadata.yaml") := by
  rw [download_ok_shape settings_buckets re loc platformSystem docsOk dsid
    data_state cc ca sf datadir update true fetch_docs cfe efl vb b
    dsid_name sel hb hd hsel hne] at hf
  have hP : pyJoin datadir dsid_name = datadir ++ "/" ++ dsid_name :=
    pyJoin_eq datadir dsid_name hdd1 hdd2 hdn
  rcases passStages_files_mem re loc platformSystem docsOk dsid_name sel
      datadir update fetch_docs (filesFound re dsid_name) f hf with h | h | h
  · -- f survived the pruning filter
    obtain ⟨hf1, hkeep⟩ := pruneDataset_files_mem h
    have hsets := prune_keep hf1 hunder hkeep
    have hpre : (addSlash (pyJoin datadir dsid_name)).data <+: f.data :=
      (strStarts_iff _ _).mp hunder
    have hpre2 : (datadir.data ++ ['/']) <+: f.data := by
      refine List.IsPrefix.trans ?_ hpre
      unfold addSlash
      by_cases he : strEnds (pyJoin datadir dsid_name) "/" = true
      · rw [if_pos he, hP, strData_append, strData_append, dataSlash]
        exact List.prefix_append _ _
      · rw [if_neg he, hP, strData_append, strData_append, strData_append,
          dataSlash]
        exact (List.prefix_append _ _).trans
          (by rw [List.append_assoc]; exact List.prefix_append _ _)
    obtain ⟨rest, hrest⟩ := hpre2
    have hfeq : f = ⟨datadir.data ++ '/' :: rest⟩ :=
      strExt (by rw [← hrest]; simp)
    have hdrop : strDrop f (datadir.length + 1) = ⟨rest⟩ := by
      rw [hfeq]
      exact strDrop_concat datadir rest
    rw [hdrop] at hsets
    refine ⟨⟨rest⟩, ?_, ?_⟩
    · rw [hfeq]
      apply strExt
      simp [strData_append, dataSlash]
    · rcases hsets with h1 | h1
      · exact Or.inl h1
      · rcases List.mem_cons.mp h1 with h2 | h2
        · exact Or.inr (Or.inl h2)
        · exact Or.inr (Or.inr (List.mem_singleton.mp h2))
  · -- f is the metadata artifact written by the documentation fetch
    refine ⟨pyJoin dsid_name "metadata.yaml", ?_,
      Or.inr (Or.inr rfl)⟩
    rw [h, pyJoin_join_eq datadir dsid_name "metadata.yaml" hdd1 hdd2 hdn
      (by decide)]
  · -- f is the data dictionary artifact
    refine ⟨pyJoin dsid_name "datadictionary.yaml", ?_,
      Or.inr (Or.inl rfl)⟩
    rw [h, pyJoin_join_eq datadir dsid_name "datadictionary.yaml" hdd1 hdd2
      hdn (by decide)]

/-- Witness for the amended C1 at a concrete input: the surviving
unselected file decomposes as datadir plus a relative path in the full
remote listing. -/
theorem C1_witness :
    ∃ rel, "data/ds-x/b.txt" = "data" ++ "/" ++ rel
      ∧ (rel ∈ filesFound ⟨["ds-x/"], ["ds-x/a.csv", "ds-x/b.txt"],
            fun _ => 0⟩ "ds-x/"
         ∨ rel = pyJoin "ds-x/" "datadictionary.yaml"
         ∨ rel = pyJoin "ds-x/" "metadata.yaml") :=
  C1_remaining_in_listing_or_protected [("standardised", "bkt")]
    ⟨["ds-x/"], ["ds-x/a.csv", "ds-x/b.txt"], fun _ => 0⟩
    ⟨["data/ds-x/b.txt"], fun _ => 0, fun _ => 0, fun _ => false⟩
    "Linux" true "ds" "standardised" none none (some ["csv"])
    "data" false false false [none] false "bkt" "ds-x/" ["ds-x/a.csv"]
    "data/ds-x/b.txt" (by decide) (by decide) (by decide) (by decide)
    (by decide) (by decide) (by decide) (by decide) (by decide)

/-- Counterexample to claim C9 as stated: when `datadir` carries a trailing
separator ("data/"), the relative-path slice `file_path[len(datadir)+1:]`
is misaligned by one character, so the protected file metadata.yaml sitting
directly under the dataset's local subdirectory is deleted by a clean
pass.  The second conjunct identifies the removed path as the protected
location `join(datadir, dsid_name, "metadata.yaml")`. -/
theorem C9_counterexample :
    FSEvent.remove "data/ds-x/metadata.yaml" ∈
      (download_dataset_v2 [("standardised", "bkt")]
        ⟨["ds-x/"], ["ds-x/a.csv"], fun _ => 0⟩
        ⟨["data/ds-x/metadata.yaml"], fun _ => 0, fun _ => 0, fun _ => false⟩
        "Linux" true "ds" "standardised" none none none
        "data/" false true false false [none] false).events
    ∧ pyJoin (pyJoin "data/" "ds-x/") "metadata.yaml"
        = "data/ds-x/metadata.yaml" :=
  ⟨by decide, by decide⟩

/-- Claim C9 (amended): provided `datadir` is a nonempty name without a
trailing separator, the pruner deletes only files under the dataset's local
subdirectory and never the metadata.yaml or datadictionary.yaml located
directly under it; with a trailing separator the relative-path computation
is misaligned and the protection fails. -/
theorem C9_prune_protected_and_scoped
    (settings_buckets : List (String × String)) (re : Remote) (loc : LocalFS)
    (platformSystem : String) (docsOk : Bool) (dsid data_state : String)
    (cc ca sf : Option (List String)) (datadir : String)
    (update clean fetch_docs cfe : Bool) (efl : List (Option String))
    (vb : Bool) (b dsid_name : String) (sel : List String) (p : String)
    (hb : lookupBucket settings_buckets data_state = some b)
    (hd : dsidNames re.folders dsid = some dsid_name)
    (hsel : files_to_download (filesFound re dsid_name) cc ca sf
      = Except.ok sel)
    (hne : sel.isEmpty = false)
    (hdd1 : datadir ≠ "") (hdd2 : strEnds datadir "/" = false)
    (hdn : strStarts dsid_name "/" = false)
    (hp : FSEvent.remove p ∈ (download_dataset_v2 settings_buckets re loc
        platformSystem docsOk dsid data_state cc ca sf datadir update clean
        fetch_docs cfe efl vb).events) :
    strStarts p (addSlash (pyJoin datadir dsid_name)) = true
    ∧ p ≠ pyJoin (pyJoin datadir dsid_name) "metadata.yaml"
    ∧ p ≠ pyJoin (pyJoin datadir dsid_name) "datadictionary.yaml" := by
  rw [download_ok_shape settings_buckets re loc platformSystem docsOk dsid
    data_state cc ca sf datadir update clean fetch_docs cfe efl vb b
    dsid_name sel hb hd hsel hne] at hp
  obtain ⟨-, hprem⟩ := (passStages_remove re loc platformSystem docsOk
    dsid_name sel datadir update clean fetch_docs (filesFound re dsid_name)
    p).mp hp
  obtain ⟨-, hunder, -, hnex⟩ := pruneRemovals_mem hprem
  have hreldrop : ∀ x : String, strStarts x "/" = false →
      strDrop (datadir ++ "/" ++ pyJoin dsid_name x) (datadir.length + 1)
        = pyJoin dsid_name x := by
    intro x _
    have hsplit : datadir ++ "/" ++ pyJoin dsid_name x
        = ⟨datadir.data ++ '/' :: (pyJoin dsid_name x).data⟩ :=
      strExt (by simp [strData_append, dataSlash])
    rw [hsplit, strDrop_concat, strEta]
  refine ⟨hunder, ?_, ?_⟩
  · intro heq
    apply hnex
    rw [heq, pyJoin_join_eq datadir dsid_name "metadata.yaml" hdd1 hdd2 hdn
      (by decide), hreldrop "metadata.yaml" (by decide)]
    simp
  · intro heq
    apply hnex
    rw [heq, pyJoin_join_eq datadir dsid_name "datadictionary.yaml" hdd1
      hdd2 hdn (by decide), hreldrop "datadictionary.yaml" (by decide)]
    simp

/-- Witness for the amended C9 at a concrete input: the one file removed by
a clean pass lies inside the dataset subdirectory and is neither protected
artifact. -/
theorem C9_witness :
    strStarts "data/ds-x/junk.txt" (addSlash (pyJoin "data" "ds-x/")) = true
    ∧ "data/ds-x/junk.txt" ≠ pyJoin (pyJoin "data" "ds-x/") "metadata.yaml"
    ∧ "data/ds-x/junk.txt"
        ≠ pyJoin (pyJoin "data" "ds-x/") "datadictionary.yaml" :=
  C9_prune_protected_and_scoped [("standardised", "bkt")]
    ⟨["ds-x/"], ["ds-x/a.csv"], fun _ => 0⟩
    ⟨["data/ds-x/junk.txt"], fun _ => 0, fun _ => 0, fun _ => false⟩
    "Linux" true "ds" "standardised" none none none
    "data" false true false false [none] false "bkt" "ds-x/"
    ["ds-x/a.csv"] "data/ds-x/junk.txt" (by decide) (by decide) (by decide)
    (by decide) (by decide) (by decide) (by decide) (by decide)

